import Mathlib

/-!
Verification development for the VSRTL graphics geometry engine
(src/graphics/vsrtl_componentgraphic.cpp).

The embedding models the integer grid rectangles (Qt QRect, stored as
position plus size with the x2 = x + w - 1 convention), the continuous
scene rectangles (Qt QRectF, rational coordinates), the grid/scene
coordinate mapper, port placement, the minimum-footprint adjustment,
resize snapping, move clamping, expand/collapse geometry propagation
and the special-signal verification performed at construction.

GRID_SIZE and SIDE_MARGIN are compile-time constants defined in
vsrtl_graphics_defines.h (not part of the analysed sources); they are
kept as explicit parameters (a natural number grid size g and a
rational side margin sm) so every statement is explicit about which
constants it depends on.
-/

namespace VSRTL

/-- Qt QRect: integer rectangle given by top-left corner and size.
Qt derives x2 = x + w - 1 and y2 = y + h - 1 for right() and bottom(). -/
structure QRect where
  x : Int
  y : Int
  w : Int
  h : Int
deriving Repr, DecidableEq

/-- QRect::right() is x + width - 1 (Qt integer-rect convention). -/
def QRect.right (r : QRect) : Int := r.x + r.w - 1

/-- QRect::bottom() is y + height - 1 (Qt integer-rect convention). -/
def QRect.bottom (r : QRect) : Int := r.y + r.h - 1

/-- QRect::setRight(v) moves the right edge, keeping the left edge. -/
def QRect.setRight (r : QRect) (v : Int) : QRect :=
  { r with w := v - r.x + 1 }

/-- QRect::setBottom(v) moves the bottom edge, keeping the top edge. -/
def QRect.setBottom (r : QRect) (v : Int) : QRect :=
  { r with h := v - r.y + 1 }

/-- QRect::adjust(dx1, dy1, dx2, dy2) adds the offsets to the two corners. -/
def QRect.adjust (r : QRect) (dx1 dy1 dx2 dy2 : Int) : QRect :=
  ⟨r.x + dx1, r.y + dy1, r.w + dx2 - dx1, r.h + dy2 - dy1⟩

/-- QRect::contains(other): the other rectangle lies inside this one. -/
def QRect.containsRect (a b : QRect) : Prop :=
  a.x ≤ b.x ∧ a.y ≤ b.y ∧ b.x + b.w ≤ a.x + a.w ∧ b.y + b.h ≤ a.y + a.h

instance (a b : QRect) : Decidable (a.containsRect b) := by
  unfold QRect.containsRect; infer_instance

/-- Qt QRectF: rectangle with rational coordinates (continuous
semantics: right() is exactly x + w). -/
structure QRectF where
  x : ℚ
  y : ℚ
  w : ℚ
  h : ℚ
deriving Repr, DecidableEq

/-- QRectF::right() is x + width (continuous convention). -/
def QRectF.right (r : QRectF) : ℚ := r.x + r.w

/-- QRectF::bottom() is y + height (continuous convention). -/
def QRectF.bottom (r : QRectF) : ℚ := r.y + r.h

/-- QRectF::contains(other): the other rectangle lies inside this one,
edges included. -/
def QRectF.containsRect (a b : QRectF) : Prop :=
  a.x ≤ b.x ∧ a.y ≤ b.y ∧ b.x + b.w ≤ a.x + a.w ∧ b.y + b.h ≤ a.y + a.h

instance (a b : QRectF) : Decidable (a.containsRect b) := by
  unfold QRectF.containsRect; infer_instance

/-- QRectF::translated(px, py): same size, origin shifted. -/
def QRectF.translated (r : QRectF) (px py : ℚ) : QRectF :=
  { r with x := r.x + px, y := r.y + py }

/-- gridToScene (vsrtl_componentgraphic.cpp lines 38-44): starts from a
default-constructed QRectF at the origin and only sets width and height
scaled by GRID_SIZE; the position of the input rectangle is not copied. -/
def gridToScene (g : ℕ) (r : QRect) : QRectF :=
  ⟨0, 0, (r.w : ℚ) * g, (r.h : ℚ) * g⟩

/-- sceneToGrid (vsrtl_componentgraphic.cpp lines 46-53): divides width
and height by GRID_SIZE and returns a QRect anchored at QPoint(0, 0)
whose size is the ceiling of the scaled width and height. -/
def sceneToGrid (g : ℕ) (s : QRectF) : QRect :=
  ⟨0, 0, ⌈s.w / (g : ℚ)⌉, ⌈s.h / (g : ℚ)⌉⟩

/-- Modelled from the spec: roundUp (declared in vsrtl_graphics_util.h,
which is not part of the analysed sources) rounds a value up to the
nearest multiple of its second argument. Port placement computes
roundUp(i * seg + seg / 2, GRID_SIZE) / GRID_SIZE with
seg = height * GRID_SIZE / N (vsrtl_componentgraphic.cpp lines 353-374);
the grid size cancels, leaving the ceiling of (2i + 1) * H / (2N),
expressed here with natural-number ceiling division. -/
def portGridIndex (H N i : ℕ) : ℕ :=
  ((2 * i + 1) * H + (2 * N - 1)) / (2 * N)

/-- adjustedMinGridRect (vsrtl_componentgraphic.cpp lines 282-305):
grows the registered minimum grid rect so that the larger port count
fits with a one-unit margin at top and bottom, and, when includePorts
is set, adds one grid tick of width per side that carries ports. -/
def adjustedMinGridRect (minRect : QRect) (nIn nOut : ℕ) (includePorts : Bool) : QRect :=
  let largestPortSize : Int := if nIn > nOut then (nIn : Int) else (nOut : Int)
  let heightToAdd : Int := (largestPortSize + 2) - minRect.h
  let r1 := if heightToAdd > 0 then minRect.adjust 0 0 0 heightToAdd else minRect
  if includePorts then
    let r2 := if 0 < nIn then r1.adjust 0 0 1 0 else r1
    if 0 < nOut then r2.adjust 0 0 1 0 else r2
  else r1

/-- Grid rect taken by the GeometryChange::Collapse and
GeometryChange::None cases of updateGeometry (lines 318-326):
adjustedMinGridRect without port stubs, widened by
name-length / GRID_SIZE (integer division). -/
def collapseGridRect (minRect : QRect) (nIn nOut nameLen g : ℕ) : QRect :=
  (adjustedMinGridRect minRect nIn nOut false).adjust 0 0 ((nameLen / g : ℕ) : Int) 0

/-- One subcomponent as seen by its parent: its scene position (set by
place-and-route or by user moves) and the size of its own grid rect.
Its local sceneGridRect is gridToScene of its grid rect, so only the
grid sizes matter to the parent. -/
structure ChildItem where
  px : ℚ
  py : ℚ
  cw : Int
  ch : Int
deriving Repr, DecidableEq

/-- Modelled from the spec: boundingRectOfRects (declared in
vsrtl_graphics_util.h, not part of the analysed sources) returns the
bounding rectangle of its two argument rectangles: componentwise
min of the top-left corners and max of the bottom-right corners. -/
def boundingRectOfRects (a b : QRectF) : QRectF :=
  let l := min a.x b.x
  let t := min a.y b.y
  let r := max (a.x + a.w) (b.x + b.w)
  let bo := max (a.y + a.h) (b.y + b.h)
  ⟨l, t, r - l, bo - t⟩

/-- mapFromItem(c, c->boundingRect()): the boundingRect of the child is its
local sceneGridRect (anchored at the origin by gridToScene) adjusted by
SIDE_MARGIN on every side (vsrtl_componentgraphic.cpp lines 573-580),
translated to the parent frame by the position of the child. -/
def childMappedBoundingRect (g : ℕ) (sm : ℚ) (c : ChildItem) : QRectF :=
  ⟨c.px - sm, c.py - sm, (c.cw : ℚ) * g + 2 * sm, (c.ch : ℚ) * g + 2 * sm⟩

/-- Accumulation loop of subcomponentBoundingGridRect (lines 273-277):
fold of boundingRectOfRects over the mapped child rects, started from a
default-constructed QRectF (the degenerate rectangle at the origin). -/
def subcomponentBoundingSceneRect (g : ℕ) (sm : ℚ) (children : List ChildItem) : QRectF :=
  children.foldl (fun acc c => boundingRectOfRects acc (childMappedBoundingRect g sm c)) ⟨0, 0, 0, 0⟩

/-- subcomponentBoundingGridRect (vsrtl_componentgraphic.cpp lines
270-280): scene bounding rect of the subcomponents converted to grid
coordinates with sceneToGrid. -/
def subcomponentBoundingGridRect (g : ℕ) (sm : ℚ) (children : List ChildItem) : QRect :=
  sceneToGrid g (subcomponentBoundingSceneRect g sm children)

/-- Containment of a child box in the parent grid rect, stated in grid
units: the grid rect of the child sits at scene position (px, py), that is
at grid coordinates (px / g, py / g), with its own grid size. -/
def gridRectContainsChild (R : QRect) (g : ℕ) (c : ChildItem) : Prop :=
  (R.x : ℚ) ≤ c.px / g ∧ (R.y : ℚ) ≤ c.py / g ∧
  c.px / g + c.cw ≤ (R.x : ℚ) + R.w ∧ c.py / g + c.ch ≤ (R.y : ℚ) + R.h

instance (R : QRect) (g : ℕ) (c : ChildItem) : Decidable (gridRectContainsChild R g c) := by
  unfold gridRectContainsChild; infer_instance

/-- snapToMinGridRect (vsrtl_componentgraphic.cpp lines 549-567): grows
the right and bottom edges of the proposal up to the comparison rect
where they fall short; the returned flag is false exactly when both
edges had to be snapped. -/
def snapToMinGridRect (cmpRect r : QRect) : QRect × Bool :=
  let p1 := if r.right < cmpRect.right then (r.setRight cmpRect.right, true) else (r, false)
  let p2 := if p1.1.bottom < cmpRect.bottom then (p1.1.setBottom cmpRect.bottom, true) else (p1.1, false)
  (p2.1, !(p1.2 && p2.2))

/-- Comparison rect used by snapToMinGridRect (line 554): the bounding
rect of the subcomponents when the component has subcomponents and is
expanded, otherwise the port-adjusted minimum grid rect. -/
def minSatisfyingGridRect (g : ℕ) (sm : ℚ) (hasSub expanded : Bool)
    (children : List ChildItem) (minRect : QRect) (nIn nOut : ℕ) : QRect :=
  if hasSub && expanded then subcomponentBoundingGridRect g sm children
  else adjustedMinGridRect minRect nIn nOut true

/-- GeometryChange::Resize case of updateGeometry (lines 327-334): the
snapped proposal becomes the grid rect when snapToMinGridRect accepts,
otherwise the update returns early and the grid rect is unchanged. -/
def resizeGridRect (old proposal cmpRect : QRect) : QRect :=
  let s := snapToMinGridRect cmpRect proposal
  if s.2 then s.1 else old

/-- GeometryChange flags of updateGeometry (vsrtl_componentgraphic.h /
switch in lines 317-341). -/
inductive GeometryChange where
  | noneFlag
  | resize
  | expand
  | collapse
  | childJustExpanded
  | childJustCollapsed
deriving Repr, DecidableEq

/-- Step 6 of updateGeometry (lines 397-401): a parent is notified only
when the current flag is Expand or Collapse, receiving the matching
ChildJustExpanded or ChildJustCollapsed flag. -/
def parentFlagFor : GeometryChange → Option GeometryChange
  | GeometryChange.expand => some GeometryChange.childJustExpanded
  | GeometryChange.collapse => some GeometryChange.childJustCollapsed
  | _ => none

/-- An ancestor node as needed by the propagation model: its current
grid rect and the mapped bounding rects data of its own subcomponents
(from which a recomputation would derive its new grid rect). -/
structure AncestorNode where
  cur : QRect
  children : List ChildItem
deriving Repr, DecidableEq

/-- Grid rect an ancestor obtains when its updateGeometry runs with an
Expand, ChildJustExpanded or ChildJustCollapsed flag (lines 335-340). -/
def recomputedRect (g : ℕ) (sm : ℚ) (n : AncestorNode) : QRect :=
  subcomponentBoundingGridRect g sm n.children

/-- Effect of step 6 of updateGeometry on the chain of ancestors of a
node that just ran updateGeometry with the given notification: each
notified ancestor recomputes its grid rect (its switch case for a
ChildJust* flag is subcomponentBoundingGridRect) and then notifies its
own parent only if its flag is again Expand or Collapse. -/
def ancestorRectsAfter (g : ℕ) (sm : ℚ) : Option GeometryChange → List AncestorNode → List QRect
  | none, ns => ns.map AncestorNode.cur
  | some _, [] => []
  | some f, n :: rest =>
      (match f with
        | GeometryChange.expand | GeometryChange.childJustExpanded
        | GeometryChange.childJustCollapsed => recomputedRect g sm n
        | _ => n.cur) :: ancestorRectsAfter g sm (parentFlagFor f) rest

/-- verifySpecialSignals (vsrtl_componentgraphic.cpp lines 67-78),
called from the constructor (line 64): walks the special port IDs
required by the graphics type and throws on the first one the simulator
component has not assigned. -/
def verifySpecialSignals (requiredIDs : List String) (getSpecialPort : String → Option ℕ) :
    Except String Unit :=
  match requiredIDs with
  | [] => Except.ok ()
  | id :: rest =>
      if getSpecialPort id = none then
        Except.error ("Special port: " ++ id ++ " not assigned. A special port of this ID " ++
          "should be registered through SimComponent::setSpecialPort")
      else
        verifySpecialSignals rest getSpecialPort

/-- std::round as used through qmath: rounds to the nearest integer,
halves away from zero. -/
def qround (v : ℚ) : Int :=
  if 0 ≤ v then ⌊v + 1 / 2⌋ else -⌊-v + 1 / 2⌋

/-- snapToGrid (vsrtl_componentgraphic.cpp lines 34-36): round to the
nearest multiple of GRID_SIZE. -/
def snapToGrid (g : ℕ) (v : ℚ) : ℚ :=
  (qround (v / g) : ℚ) * g

/-- Context of an ItemPositionChange proposal (lines 428-466): grid
size, side margin, the parent grid rect size, the grid rect size of
this item, whether a parent component graphic exists and whether it
currently restricts subcomponent positioning. -/
structure MoveCtx where
  g : ℕ
  sm : ℚ
  parentW : Int
  parentH : Int
  childW : Int
  childH : Int
  hasParent : Bool
  restrict : Bool
deriving Repr, DecidableEq

/-- Parent scene grid rect as used by itemChange: gridToScene of the
parent grid rect, anchored at the origin of the parent frame. -/
def moveParentRect (c : MoveCtx) : QRectF :=
  gridToScene c.g ⟨0, 0, c.parentW, c.parentH⟩

/-- The boundingRect of this item in local coordinates: sceneGridRect
adjusted by SIDE_MARGIN on all sides. -/
def moveThisRect (c : MoveCtx) : QRectF :=
  ⟨-c.sm, -c.sm, (c.childW : ℚ) * c.g + 2 * c.sm, (c.childH : ℚ) * c.g + 2 * c.sm⟩

/-- Position returned by ComponentGraphic::itemChange for an
ItemPositionChange (lines 440-462): grid-snap the proposal; accept it
unrestricted when there is no parent component graphic or the parent
does not restrict positioning; accept it when the unsnapped bounding
rect stays inside the parent rect; otherwise clamp the unsnapped
proposal into the parent bounds and snap the clamped value. -/
def itemChangePos (c : MoveCtx) (pos : ℚ × ℚ) : ℚ × ℚ :=
  let sx := snapToGrid c.g pos.1
  let sy := snapToGrid c.g pos.2
  if !c.hasParent || !c.restrict then (sx, sy)
  else
    let parentRect := moveParentRect c
    let thisRect := moveThisRect c
    if parentRect.containsRect ((thisRect.translated pos.1 pos.2)) then (sx, sy)
    else
      (snapToGrid c.g (min (parentRect.right - thisRect.w) (max pos.1 parentRect.x)),
       snapToGrid c.g (min (parentRect.bottom - thisRect.h) (max pos.2 parentRect.y)))

/-! Helper lemmas. -/

theorem portGridIndex_ge_one (H N i : ℕ) (hH : 1 ≤ H) (hN : 1 ≤ N) :
    1 ≤ portGridIndex H N i := by
  unfold portGridIndex
  rw [Nat.le_div_iff_mul_le (by omega)]
  have h1 : 1 ≤ (2 * i + 1) * H := Nat.one_le_iff_ne_zero.mpr (by positivity)
  omega

theorem portGridIndex_le_height (H N i : ℕ) (hN : 1 ≤ N) (hi : i < N) :
    portGridIndex H N i ≤ H := by
  obtain ⟨M, rfl⟩ : ∃ M, N = M + 1 := ⟨N - 1, by omega⟩
  unfold portGridIndex
  have hlt : (2 * i + 1) * H + (2 * (M + 1) - 1) < (H + 1) * (2 * (M + 1)) := by
    have h3 : (2 * i + 1) * H ≤ (2 * M + 1) * H :=
      Nat.mul_le_mul_right H (by omega)
    have h4 : (2 * M + 1) * (H + 1) = (2 * M + 1) * H + (2 * M + 1) := by ring
    have h5 : (2 * M + 1) * (H + 1) < (2 * (M + 1)) * (H + 1) :=
      (Nat.mul_lt_mul_right (by omega)).mpr (by omega)
    have h6 : (2 * (M + 1)) * (H + 1) = (H + 1) * (2 * (M + 1)) := by ring
    omega
  have := (Nat.div_lt_iff_lt_mul (k := 2 * (M + 1)) (by omega)).mpr hlt
  omega

theorem portGridIndex_strict_step (H N i : ℕ) (hN : 1 ≤ N) (hNH : N ≤ H) :
    portGridIndex H N i < portGridIndex H N (i + 1) := by
  unfold portGridIndex
  have key : ((2 * i + 1) * H + (2 * N - 1)) + 2 * N ≤ (2 * (i + 1) + 1) * H + (2 * N - 1) := by
    have h2 : (2 * (i + 1) + 1) * H = (2 * i + 1) * H + 2 * H := by ring
    omega
  calc ((2 * i + 1) * H + (2 * N - 1)) / (2 * N)
      < ((2 * i + 1) * H + (2 * N - 1)) / (2 * N) + 1 := Nat.lt_succ_self _
    _ = (((2 * i + 1) * H + (2 * N - 1)) + 2 * N) / (2 * N) := by
        rw [Nat.add_div_right _ (by omega)]
    _ ≤ ((2 * (i + 1) + 1) * H + (2 * N - 1)) / (2 * N) := Nat.div_le_div_right key

/-! Claim theorems. -/

/-- C2 counterexample: the round trip sceneToGrid after gridToScene
drops the position of the input grid rectangle, so for the rectangle at
(1, 1) with size 2 by 2 and grid size 14 the result is the rectangle at
the origin of the same size, which does not contain the input. -/
theorem roundTrip_drops_position :
    sceneToGrid 14 (gridToScene 14 ⟨1, 1, 2, 2⟩) = ⟨0, 0, 2, 2⟩ ∧
    ¬ QRect.containsRect (sceneToGrid 14 (gridToScene 14 ⟨1, 1, 2, 2⟩)) ⟨1, 1, 2, 2⟩ := by
  norm_num [sceneToGrid, gridToScene, Int.ceil_eq_iff, QRect.containsRect]

/-- C2 (amended): for every positive grid size, the round trip
sceneToGrid after gridToScene returns the rectangle at the origin with
exactly the width and height of the input (the ceiling is exact on the
already integral scaled sizes); consequently it contains the input
precisely in the position-free sense, and literally contains it when
the input rectangle sits at the origin. -/
theorem roundTrip_preserves_size (g : ℕ) (r : QRect) (hg : 0 < g) :
    sceneToGrid g (gridToScene g r) = ⟨0, 0, r.w, r.h⟩ ∧
    (r.x = 0 → r.y = 0 → QRect.containsRect (sceneToGrid g (gridToScene g r)) r) := by
  have hgQ : (g : ℚ) ≠ 0 := by positivity
  have hw : ((r.w : ℚ) * g) / g = (r.w : ℚ) := mul_div_cancel_right₀ _ hgQ
  have hh : ((r.h : ℚ) * g) / g = (r.h : ℚ) := mul_div_cancel_right₀ _ hgQ
  have heq : sceneToGrid g (gridToScene g r) = ⟨0, 0, r.w, r.h⟩ := by
    simp [sceneToGrid, gridToScene, hw, hh]
  refine ⟨heq, fun hx hy => ?_⟩
  rw [heq]
  refine ⟨?_, ?_, ?_, ?_⟩ <;> simp [QRect.containsRect, hx, hy]

/-- C2 witness: the amended round-trip theorem evaluated at grid size
14 and the origin rectangle of size 3 by 2. -/
theorem roundTrip_preserves_size_witness :
    sceneToGrid 14 (gridToScene 14 ⟨0, 0, 3, 2⟩) = ⟨0, 0, 3, 2⟩ ∧
    (QRect.mk 0 0 3 2).x = 0 ∧
    QRect.containsRect (sceneToGrid 14 (gridToScene 14 ⟨0, 0, 3, 2⟩)) ⟨0, 0, 3, 2⟩ := by
  obtain ⟨h1, h2⟩ := roundTrip_preserves_size 14 ⟨0, 0, 3, 2⟩ (by decide)
  exact ⟨h1, rfl, h2 rfl rfl⟩

/-- C5: a component with registered minimum grid rect of size 4 by 3,
two input ports and three output ports has a port-including adjusted
minimum grid rect of size exactly 6 by 5. -/
theorem adjustedMinGridRect_scenario :
    adjustedMinGridRect ⟨0, 0, 4, 3⟩ 2 3 true = ⟨0, 0, 6, 5⟩ := by decide

/-- C3 counterexample: for a box of height 3 with 2 ports, port 1 is
assigned edge index 3, and no clamping brings it into the claimed
interval from 1 to height minus 1 (here 1 to 2). -/
theorem portGridIndex_not_clamped :
    portGridIndex 3 2 1 = 3 ∧ ¬ (portGridIndex 3 2 1 ≤ 3 - 1) := by decide

/-- C3 (amended): port placement assigns port i the unclamped index
roundUp((i + 0.5) * H / N, one grid unit); for every positive height H,
positive port count N and i below N, the assigned index lies in the
interval from 1 to H (the upper end H, not H - 1, is attainable). -/
theorem portGridIndex_bounds_unclamped (H N i : ℕ) (hH : 1 ≤ H) (hN : 1 ≤ N) (hi : i < N) :
    1 ≤ portGridIndex H N i ∧ portGridIndex H N i ≤ H :=
  ⟨portGridIndex_ge_one H N i hH hN, portGridIndex_le_height H N i hN hi⟩

/-- C3 witness: the amended port-index bounds evaluated at height 3,
two ports, port 1. -/
theorem portGridIndex_bounds_unclamped_witness :
    1 ≤ portGridIndex 3 2 1 ∧ portGridIndex 3 2 1 ≤ 3 :=
  portGridIndex_bounds_unclamped 3 2 1 (by decide) (by decide) (by decide)

/-- C4 counterexample: for height 3 with 2 ports the assigned indices
are 1 and 3, so an index escapes the claimed interval from 1 to
height minus 1; and for height 1 with 2 ports both ports receive
index 1, so the indices are not strictly increasing either. -/
theorem portIndices_range_violation :
    (portGridIndex 3 2 0 = 1 ∧ portGridIndex 3 2 1 = 3 ∧ ¬ (portGridIndex 3 2 1 ≤ 3 - 1)) ∧
    portGridIndex 1 2 0 = portGridIndex 1 2 1 := by decide

/-- C4 (amended): for every edge of height H carrying N ports (H and N
positive), all assigned indices lie in the interval from 1 to H, and
they are strictly increasing in declaration order provided the edge is
at least as tall as the number of ports it carries. -/
theorem portIndices_strictMono_range (H N : ℕ) (hH : 1 ≤ H) (hN : 1 ≤ N) :
    (∀ i, i < N → 1 ≤ portGridIndex H N i ∧ portGridIndex H N i ≤ H) ∧
    (N ≤ H → ∀ i j, i < j → j < N →
      portGridIndex H N i < portGridIndex H N j) := by
  constructor
  · exact fun i hi => ⟨portGridIndex_ge_one H N i hH hN, portGridIndex_le_height H N i hN hi⟩
  · intro hNH i j hij _
    exact strictMono_nat_of_lt_succ (fun k => portGridIndex_strict_step H N k hN hNH) hij

/-- C4 witness: the amended theorem evaluated at height 3 and 2 ports,
where the indices are 1 and 3. -/
theorem portIndices_strictMono_range_witness :
    (∀ i, i < 2 → 1 ≤ portGridIndex 3 2 i ∧ portGridIndex 3 2 i ≤ 3) ∧
    (2 ≤ 3 → ∀ i j, i < j → j < 2 → portGridIndex 3 2 i < portGridIndex 3 2 j) :=
  portIndices_strictMono_range 3 2 (by decide) (by decide)

/-- C10: verifySpecialSignals, run at construction, fails exactly when
some special port ID required by the graphics type has no assigned
special port; with every required ID assigned it returns successfully. -/
theorem verifySpecialSignals_ok_iff (req : List String) (f : String → Option ℕ) :
    verifySpecialSignals req f = Except.ok () ↔ ∀ id ∈ req, f id ≠ none := by
  induction req with
  | nil => simp [verifySpecialSignals]
  | cons a t ih =>
      by_cases h : f a = none
      · simp [verifySpecialSignals, h]
      · simp [verifySpecialSignals, h, ih]

/-- Helper: setRight does not move the bottom edge. -/
theorem QRect.setRight_bottom (r : QRect) (v : Int) : (r.setRight v).bottom = r.bottom := rfl

/-- Helper: setRight places the right edge exactly at the requested value. -/
theorem QRect.setRight_right (r : QRect) (v : Int) : (r.setRight v).right = v := by
  simp only [QRect.setRight, QRect.right]
  omega

/-- Helper: setBottom places the bottom edge exactly at the requested value. -/
theorem QRect.setBottom_bottom (r : QRect) (v : Int) : (r.setBottom v).bottom = v := by
  simp only [QRect.setBottom, QRect.bottom]
  omega

/-- Helper: setBottom does not move the right edge. -/
theorem QRect.setBottom_right (r : QRect) (v : Int) : (r.setBottom v).right = r.right := rfl

/-- C6: a resize proposal strictly below the current minimum-satisfying
rectangle (the port-adjusted minimum grid rect when collapsed, the
subcomponent bounding grid rect when expanded with subcomponents) in
both the right and the bottom edge is rejected: updateGeometry returns
without touching the grid rect, a silent local correction with no
error channel. -/
theorem resize_below_min_rejected (g : ℕ) (sm : ℚ) (hasSub expanded : Bool)
    (children : List ChildItem) (minRect : QRect) (nIn nOut : ℕ) (old proposal : QRect)
    (hr : proposal.right <
      (minSatisfyingGridRect g sm hasSub expanded children minRect nIn nOut).right)
    (hb : proposal.bottom <
      (minSatisfyingGridRect g sm hasSub expanded children minRect nIn nOut).bottom) :
    resizeGridRect old proposal
      (minSatisfyingGridRect g sm hasSub expanded children minRect nIn nOut) = old := by
  have h2 : (proposal.setRight
      (minSatisfyingGridRect g sm hasSub expanded children minRect nIn nOut).right).bottom =
      proposal.bottom := rfl
  simp [resizeGridRect, snapToMinGridRect, hr, h2, hb]

/-- C6 witness: a collapsed box with minimum grid rect 4 by 3, two
input and three output ports (minimum-satisfying rect 6 by 5, right
edge 5, bottom edge 4) holding grid rect 8 by 8 rejects the resize
proposal 3 by 3 and keeps its grid rect. -/
theorem resize_below_min_rejected_witness :
    (QRect.right ⟨0, 0, 3, 3⟩ <
      (minSatisfyingGridRect 14 10 false false [] ⟨0, 0, 4, 3⟩ 2 3).right) ∧
    resizeGridRect ⟨0, 0, 8, 8⟩ ⟨0, 0, 3, 3⟩
      (minSatisfyingGridRect 14 10 false false [] ⟨0, 0, 4, 3⟩ 2 3) = ⟨0, 0, 8, 8⟩ :=
  ⟨by decide,
   resize_below_min_rejected 14 10 false false [] ⟨0, 0, 4, 3⟩ 2 3 ⟨0, 0, 8, 8⟩ ⟨0, 0, 3, 3⟩
     (by decide) (by decide)⟩

/-- Helper: closed form of the collapse-case grid rect. -/
theorem collapseGridRect_eq (minRect : QRect) (nIn nOut nameLen g : ℕ) :
    collapseGridRect minRect nIn nOut nameLen g =
      ⟨minRect.x, minRect.y, minRect.w + ((nameLen / g : ℕ) : Int),
        max minRect.h (((max nIn nOut : ℕ) : Int) + 2)⟩ := by
  have hmax : (if nIn > nOut then (nIn : Int) else (nOut : Int)) = ((max nIn nOut : ℕ) : Int) := by
    rcases le_or_lt nIn nOut with hc | hc
    · rw [if_neg (by omega), Nat.max_eq_right hc]
    · rw [if_pos hc, Nat.max_eq_left (le_of_lt hc)]
  unfold collapseGridRect adjustedMinGridRect QRect.adjust
  simp only [Bool.false_eq_true, if_false, hmax]
  generalize ((max nIn nOut : ℕ) : Int) = L
  generalize ((nameLen / g : ℕ) : Int) = q
  split_ifs with h1 <;>
    · simp only [QRect.mk.injEq]
      refine ⟨by omega, by omega, by omega, by omega⟩

/-- C9 counterexample: a component with minimum grid rect 4 by 3, two
input and three output ports and a 2-character name collapses to the
grid rect of size 4 by 5 (no port stubs, no width for a short name),
while its stub-including adjusted minimum footprint is 6 by 5; the two
differ. -/
theorem collapse_not_adjustedMinFootprint :
    collapseGridRect ⟨0, 0, 4, 3⟩ 2 3 2 14 = ⟨0, 0, 4, 5⟩ ∧
    adjustedMinGridRect ⟨0, 0, 4, 3⟩ 2 3 true = ⟨0, 0, 6, 5⟩ ∧
    collapseGridRect ⟨0, 0, 4, 3⟩ 2 3 2 14 ≠ adjustedMinGridRect ⟨0, 0, 4, 3⟩ 2 3 true := by
  decide

/-- C9 (amended): the Expanded-to-Collapsed transition recomputes the
grid rect to the minimum footprint adjusted for port count only (the
height grows to the larger port count plus a margin of two; the width
carries no port stubs and instead grows by name-length over grid-size),
and the parent is notified via ChildJustCollapsed. -/
theorem collapse_transition_characterization (minRect : QRect) (nIn nOut nameLen g : ℕ) :
    (collapseGridRect minRect nIn nOut nameLen g).x = minRect.x ∧
    (collapseGridRect minRect nIn nOut nameLen g).y = minRect.y ∧
    (collapseGridRect minRect nIn nOut nameLen g).w
      = minRect.w + ((nameLen / g : ℕ) : Int) ∧
    (collapseGridRect minRect nIn nOut nameLen g).h
      = max minRect.h (((max nIn nOut : ℕ) : Int) + 2) ∧
    parentFlagFor GeometryChange.collapse = some GeometryChange.childJustCollapsed := by
  rw [collapseGridRect_eq]
  exact ⟨rfl, rfl, rfl, rfl, rfl⟩

/-- C8 counterexample: collapsing a node whose parent and grandparent
both hold grid rect 9 by 9 while their subcomponents only need 4 by 4
recomputes the rect of the parent to 4 by 4 but leaves the grandparent at
9 by 9, even though recomputing the grandparent would change its rect:
the ChildJustCollapsed notification does not propagate further, so
termination is neither at the root nor at an unchanged rectangle. -/
theorem grandparent_not_recomputed :
    ancestorRectsAfter 14 10 (parentFlagFor GeometryChange.collapse)
      [⟨⟨0, 0, 9, 9⟩, [⟨0, 0, 2, 2⟩]⟩, ⟨⟨0, 0, 9, 9⟩, [⟨0, 0, 2, 2⟩]⟩,
        ⟨⟨0, 0, 9, 9⟩, [⟨0, 0, 2, 2⟩]⟩]
      = [⟨0, 0, 4, 4⟩, ⟨0, 0, 9, 9⟩, ⟨0, 0, 9, 9⟩] ∧
    recomputedRect 14 10 ⟨⟨0, 0, 9, 9⟩, [⟨0, 0, 2, 2⟩]⟩ ≠ ⟨0, 0, 9, 9⟩ := by
  constructor
  · norm_num [ancestorRectsAfter, parentFlagFor, recomputedRect,
      subcomponentBoundingGridRect, subcomponentBoundingSceneRect, boundingRectOfRects,
      childMappedBoundingRect, sceneToGrid, Int.ceil_eq_iff, min_def, max_def]
  · intro h
    have := congrArg QRect.w h
    norm_num [recomputedRect, subcomponentBoundingGridRect, subcomponentBoundingSceneRect,
      boundingRectOfRects, childMappedBoundingRect, sceneToGrid, Int.ceil_eq_iff,
      min_def, max_def] at this

/-- C8 (amended): an Expand or Collapse transition recomputes the
transitioning node and notifies only its immediate parent: the parent
recomputes its grid rect from its subcomponent bounding rect, but its
own flag (ChildJustExpanded or ChildJustCollapsed) produces no further
notification, so every ancestor beyond the parent keeps its current
rect regardless of whether recomputation would change it. -/
theorem propagation_stops_at_parent (g : ℕ) (sm : ℚ) (p : AncestorNode)
    (rest : List AncestorNode) :
    ancestorRectsAfter g sm (parentFlagFor GeometryChange.collapse) (p :: rest)
      = recomputedRect g sm p :: rest.map AncestorNode.cur ∧
    ancestorRectsAfter g sm (parentFlagFor GeometryChange.expand) (p :: rest)
      = recomputedRect g sm p :: rest.map AncestorNode.cur := by
  constructor <;> simp [ancestorRectsAfter, parentFlagFor]

/-- Helper: rounding half away from zero fixes every integer. -/
theorem qround_intCast (m : ℤ) : qround (m : ℚ) = m := by
  have h12 : ⌊(1 : ℚ) / 2⌋ = 0 := by norm_num [Int.floor_eq_iff]
  unfold qround
  rcases le_or_lt 0 m with h | h
  · rw [if_pos (by exact_mod_cast h), add_comm, Int.floor_add_int, h12, zero_add]
  · rw [if_neg (not_le.mpr (by exact_mod_cast h)),
      show -(m : ℚ) = ((-m : ℤ) : ℚ) by push_cast; ring,
      add_comm, Int.floor_add_int, h12, zero_add, neg_neg]

/-- Helper: grid-snapped values are fixed points of snapToGrid. -/
theorem snapToGrid_fix (g : ℕ) (hg : 0 < g) (v : ℚ) :
    snapToGrid g (snapToGrid g v) = snapToGrid g v := by
  have hgQ : (g : ℚ) ≠ 0 := by positivity
  unfold snapToGrid
  rw [mul_div_cancel_right₀ _ hgQ, qround_intCast]

/-- C7 counterexample: with grid size 1 and side margin 1, a 2-by-2
child inside a restricting 10-by-10 parent proposed at position
(-100, 5) is clamped to (0, 5); at that returned position the bounding
rectangle of the child protrudes beyond the left edge of the parent, so the box
does not remain fully inside the rectangle of the parent. -/
theorem move_clamp_exits_parent :
    itemChangePos ⟨1, 1, 10, 10, 2, 2, true, true⟩ (-100, 5) = (0, 5) ∧
    ¬ QRectF.containsRect (moveParentRect ⟨1, 1, 10, 10, 2, 2, true, true⟩)
        ((moveThisRect ⟨1, 1, 10, 10, 2, 2, true, true⟩).translated 0 5) := by
  constructor
  · norm_num [itemChangePos, moveParentRect, moveThisRect, gridToScene,
      snapToGrid, qround, QRectF.containsRect, QRectF.translated,
      QRectF.right, QRectF.bottom, Int.floor_eq_iff, min_def, max_def]
  · norm_num [moveParentRect, moveThisRect, gridToScene, QRectF.containsRect,
      QRectF.translated]

/-- C7 (amended): every position itemChange returns is snapped to the
grid (a fixed point of snapToGrid); when the parent is mid-expansion or
absent the snapped proposal is accepted with no containment
restriction, and when the parent restricts positioning the snapped
proposal is accepted whenever the unsnapped proposal keeps the bounding
rectangle of the child inside the parent rect — containment is checked
before snapping and clamping, and is not re-established afterwards. -/
theorem itemChange_snap_characterization (c : MoveCtx) (pos : ℚ × ℚ) (hg : 0 < c.g) :
    ((c.hasParent = false ∨ c.restrict = false) →
      itemChangePos c pos = (snapToGrid c.g pos.1, snapToGrid c.g pos.2)) ∧
    (QRectF.containsRect (moveParentRect c) ((moveThisRect c).translated pos.1 pos.2) →
      itemChangePos c pos = (snapToGrid c.g pos.1, snapToGrid c.g pos.2)) ∧
    snapToGrid c.g (itemChangePos c pos).1 = (itemChangePos c pos).1 ∧
    snapToGrid c.g (itemChangePos c pos).2 = (itemChangePos c pos).2 := by
  cases hP : c.hasParent with
  | false =>
      have hEq : itemChangePos c pos = (snapToGrid c.g pos.1, snapToGrid c.g pos.2) := by
        simp [itemChangePos, hP]
      rw [hEq]
      exact ⟨fun _ => rfl, fun _ => rfl, snapToGrid_fix c.g hg pos.1, snapToGrid_fix c.g hg pos.2⟩
  | true =>
      cases hR : c.restrict with
      | false =>
          have hEq : itemChangePos c pos = (snapToGrid c.g pos.1, snapToGrid c.g pos.2) := by
            simp [itemChangePos, hP, hR]
          rw [hEq]
          exact ⟨fun _ => rfl, fun _ => rfl, snapToGrid_fix c.g hg pos.1,
            snapToGrid_fix c.g hg pos.2⟩
      | true =>
          by_cases hC : QRectF.containsRect (moveParentRect c)
              ((moveThisRect c).translated pos.1 pos.2)
          · have hEq : itemChangePos c pos = (snapToGrid c.g pos.1, snapToGrid c.g pos.2) := by
              simp [itemChangePos, hP, hR, hC]
            rw [hEq]
            refine ⟨fun h => rfl, fun _ => rfl, snapToGrid_fix c.g hg pos.1,
              snapToGrid_fix c.g hg pos.2⟩
          · have hEq : itemChangePos c pos =
                (snapToGrid c.g (min ((moveParentRect c).right - (moveThisRect c).w)
                    (max pos.1 (moveParentRect c).x)),
                 snapToGrid c.g (min ((moveParentRect c).bottom - (moveThisRect c).h)
                    (max pos.2 (moveParentRect c).y))) := by
              simp [itemChangePos, hP, hR, hC]
            rw [hEq]
            refine ⟨?_, fun h => absurd h hC, snapToGrid_fix c.g hg _, snapToGrid_fix c.g hg _⟩
            rintro (h | h) <;> simp at h

/-- C7 witness: the amended itemChange theorem evaluated at a context
with no parent, grid size 1, and proposal (-100, 5). -/
theorem itemChange_snap_characterization_witness :
    0 < (MoveCtx.mk 1 1 10 10 2 2 false true).g ∧
    (((MoveCtx.mk 1 1 10 10 2 2 false true).hasParent = false ∨
        (MoveCtx.mk 1 1 10 10 2 2 false true).restrict = false) →
      itemChangePos ⟨1, 1, 10, 10, 2, 2, false, true⟩ (-100, 5)
        = (snapToGrid 1 (-100), snapToGrid 1 5)) :=
  ⟨by decide, ((itemChange_snap_characterization ⟨1, 1, 10, 10, 2, 2, false, true⟩
      (-100, 5) (by decide)).1)⟩

/-- Helper: one bounding step takes the min of the left edges. -/
theorem boundingRectOfRects_x (a b : QRectF) : (boundingRectOfRects a b).x = min a.x b.x := rfl

/-- Helper: one bounding step takes the min of the top edges. -/
theorem boundingRectOfRects_y (a b : QRectF) : (boundingRectOfRects a b).y = min a.y b.y := rfl

/-- Helper: one bounding step takes the max of the right edges. -/
theorem boundingRectOfRects_right (a b : QRectF) :
    (boundingRectOfRects a b).right = max a.right b.right := by
  simp only [boundingRectOfRects, QRectF.right]
  ring

/-- Helper: one bounding step takes the max of the bottom edges. -/
theorem boundingRectOfRects_bottom (a b : QRectF) :
    (boundingRectOfRects a b).bottom = max a.bottom b.bottom := by
  simp only [boundingRectOfRects, QRectF.bottom]
  ring

/-- Helper: the bounding fold never moves the left edge rightwards. -/
theorem subcomponentFold_x_le (g : ℕ) (sm : ℚ) (l : List ChildItem) (acc : QRectF) :
    (l.foldl (fun a c => boundingRectOfRects a (childMappedBoundingRect g sm c)) acc).x
      ≤ acc.x := by
  induction l generalizing acc with
  | nil => exact le_refl _
  | cons c t ih =>
      rw [List.foldl_cons]
      exact le_trans (ih _) (by rw [boundingRectOfRects_x]; exact min_le_left _ _)

/-- Helper: the bounding fold never moves the top edge downwards. -/
theorem subcomponentFold_y_le (g : ℕ) (sm : ℚ) (l : List ChildItem) (acc : QRectF) :
    (l.foldl (fun a c => boundingRectOfRects a (childMappedBoundingRect g sm c)) acc).y
      ≤ acc.y := by
  induction l generalizing acc with
  | nil => exact le_refl _
  | cons c t ih =>
      rw [List.foldl_cons]
      exact le_trans (ih _) (by rw [boundingRectOfRects_y]; exact min_le_left _ _)

/-- Helper: the bounding fold never moves the right edge leftwards. -/
theorem subcomponentFold_right_mono (g : ℕ) (sm : ℚ) (l : List ChildItem) (acc : QRectF) :
    acc.right
      ≤ (l.foldl (fun a c => boundingRectOfRects a (childMappedBoundingRect g sm c)) acc).right := by
  induction l generalizing acc with
  | nil => exact le_refl _
  | cons c t ih =>
      rw [List.foldl_cons]
      refine le_trans ?_ (ih _)
      rw [boundingRectOfRects_right]
      exact le_max_left _ _

/-- Helper: the bounding fold never moves the bottom edge upwards. -/
theorem subcomponentFold_bottom_mono (g : ℕ) (sm : ℚ) (l : List ChildItem) (acc : QRectF) :
    acc.bottom
      ≤ (l.foldl (fun a c => boundingRectOfRects a (childMappedBoundingRect g sm c)) acc).bottom := by
  induction l generalizing acc with
  | nil => exact le_refl _
  | cons c t ih =>
      rw [List.foldl_cons]
      refine le_trans ?_ (ih _)
      rw [boundingRectOfRects_bottom]
      exact le_max_left _ _

/-- Helper: every folded child rect keeps its right edge inside the fold. -/
theorem subcomponentFold_right_mem (g : ℕ) (sm : ℚ) (l : List ChildItem) (acc : QRectF)
    (c : ChildItem) (hc : c ∈ l) :
    (childMappedBoundingRect g sm c).right
      ≤ (l.foldl (fun a k => boundingRectOfRects a (childMappedBoundingRect g sm k)) acc).right := by
  induction l generalizing acc with
  | nil => cases hc
  | cons a t ih =>
      rw [List.foldl_cons]
      rcases List.mem_cons.mp hc with h | h
      · subst h
        refine le_trans ?_ (subcomponentFold_right_mono g sm t _)
        rw [boundingRectOfRects_right]
        exact le_max_right _ _
      · exact ih _ h

/-- Helper: every folded child rect keeps its bottom edge inside the fold. -/
theorem subcomponentFold_bottom_mem (g : ℕ) (sm : ℚ) (l : List ChildItem) (acc : QRectF)
    (c : ChildItem) (hc : c ∈ l) :
    (childMappedBoundingRect g sm c).bottom
      ≤ (l.foldl (fun a k => boundingRectOfRects a (childMappedBoundingRect g sm k)) acc).bottom := by
  induction l generalizing acc with
  | nil => cases hc
  | cons a t ih =>
      rw [List.foldl_cons]
      rcases List.mem_cons.mp hc with h | h
      · subst h
        refine le_trans ?_ (subcomponentFold_bottom_mono g sm t _)
        rw [boundingRectOfRects_bottom]
        exact le_max_right _ _
      · exact ih _ h

/-- Helper: containment of nonnegatively positioned children in the
recomputed grid rect. -/
theorem subcomponentBounding_contains_nonneg (g : ℕ) (sm : ℚ) (hg : 0 < g) (hsm : 0 ≤ sm)
    (children : List ChildItem) (hpos : ∀ c ∈ children, 0 ≤ c.px ∧ 0 ≤ c.py)
    (c : ChildItem) (hc : c ∈ children) :
    gridRectContainsChild (subcomponentBoundingGridRect g sm children) g c := by
  have hgQ : (0 : ℚ) < g := by exact_mod_cast hg
  obtain ⟨hpx, hpy⟩ := hpos c hc
  have hBx : (subcomponentBoundingSceneRect g sm children).x ≤ 0 :=
    subcomponentFold_x_le g sm children ⟨0, 0, 0, 0⟩
  have hBy : (subcomponentBoundingSceneRect g sm children).y ≤ 0 :=
    subcomponentFold_y_le g sm children ⟨0, 0, 0, 0⟩
  have hR : (childMappedBoundingRect g sm c).right
      ≤ (subcomponentBoundingSceneRect g sm children).right :=
    subcomponentFold_right_mem g sm children ⟨0, 0, 0, 0⟩ c hc
  have hBo : (childMappedBoundingRect g sm c).bottom
      ≤ (subcomponentBoundingSceneRect g sm children).bottom :=
    subcomponentFold_bottom_mem g sm children ⟨0, 0, 0, 0⟩ c hc
  set B := subcomponentBoundingSceneRect g sm children with hBdef
  have hcr : (childMappedBoundingRect g sm c).right = c.px + c.cw * g + sm := by
    simp only [childMappedBoundingRect, QRectF.right]
    ring
  have hcb : (childMappedBoundingRect g sm c).bottom = c.py + c.ch * g + sm := by
    simp only [childMappedBoundingRect, QRectF.bottom]
    ring
  rw [hcr] at hR
  rw [hcb] at hBo
  have hBw : B.w = B.right - B.x := by
    simp only [QRectF.right]
    ring
  have hBh : B.h = B.bottom - B.y := by
    simp only [QRectF.bottom]
    ring
  have hRx : (subcomponentBoundingGridRect g sm children).x = 0 := rfl
  have hRy : (subcomponentBoundingGridRect g sm children).y = 0 := rfl
  have hRw : (subcomponentBoundingGridRect g sm children).w = ⌈B.w / (g : ℚ)⌉ := rfl
  have hRh : (subcomponentBoundingGridRect g sm children).h = ⌈B.h / (g : ℚ)⌉ := rfl
  unfold gridRectContainsChild
  rw [hRx, hRy, hRw, hRh]
  have key3 : c.px / g + (c.cw : ℚ) ≤ ((⌈B.w / (g : ℚ)⌉ : ℤ) : ℚ) :=
    calc c.px / g + (c.cw : ℚ)
        = (c.px + c.cw * g) / g := by field_simp
      _ ≤ (B.right - B.x) / g := by
          apply (div_le_div_iff_of_pos_right hgQ).mpr
          linarith
      _ = B.w / g := by rw [hBw]
      _ ≤ ((⌈B.w / (g : ℚ)⌉ : ℤ) : ℚ) := Int.le_ceil _
  have key4 : c.py / g + (c.ch : ℚ) ≤ ((⌈B.h / (g : ℚ)⌉ : ℤ) : ℚ) :=
    calc c.py / g + (c.ch : ℚ)
        = (c.py + c.ch * g) / g := by field_simp
      _ ≤ (B.bottom - B.y) / g := by
          apply (div_le_div_iff_of_pos_right hgQ).mpr
          linarith
      _ = B.h / g := by rw [hBh]
      _ ≤ ((⌈B.h / (g : ℚ)⌉ : ℤ) : ℚ) := Int.le_ceil _
  refine ⟨?_, ?_, ?_, ?_⟩
  · rw [Int.cast_zero]
    exact div_nonneg hpx (le_of_lt hgQ)
  · rw [Int.cast_zero]
    exact div_nonneg hpy (le_of_lt hgQ)
  · rw [Int.cast_zero, zero_add]
    exact key3
  · rw [Int.cast_zero, zero_add]
    exact key4

/-- Helper: the resize case keeps the right and bottom edges at or
beyond the comparison rect whenever the previous rect satisfied them. -/
theorem resizeGridRect_preserves_min (old proposal cmp : QRect)
    (h1 : cmp.right ≤ old.right) (h2 : cmp.bottom ≤ old.bottom) :
    cmp.right ≤ (resizeGridRect old proposal cmp).right ∧
    cmp.bottom ≤ (resizeGridRect old proposal cmp).bottom := by
  have hsrb : (proposal.setRight cmp.right).bottom = proposal.bottom := rfl
  rcases lt_or_le proposal.right cmp.right with ha | ha <;>
    rcases lt_or_le proposal.bottom cmp.bottom with hb | hb
  · have hEq : resizeGridRect old proposal cmp = old := by
      simp [resizeGridRect, snapToMinGridRect, ha, hsrb, hb]
    rw [hEq]
    exact ⟨h1, h2⟩
  · have hb2 : ¬ (proposal.setRight cmp.right).bottom < cmp.bottom := by
      rw [hsrb]; exact not_lt.mpr hb
    have hEq : resizeGridRect old proposal cmp = proposal.setRight cmp.right := by
      simp [resizeGridRect, snapToMinGridRect, ha, hb2]
    rw [hEq]
    exact ⟨le_of_eq (QRect.setRight_right proposal cmp.right).symm,
      by rw [hsrb]; exact hb⟩
  · have ha2 : ¬ proposal.right < cmp.right := not_lt.mpr ha
    have hEq : resizeGridRect old proposal cmp = proposal.setBottom cmp.bottom := by
      simp [resizeGridRect, snapToMinGridRect, ha2, hb]
    rw [hEq]
    exact ⟨by rw [QRect.setBottom_right]; exact ha,
      le_of_eq (QRect.setBottom_bottom proposal cmp.bottom).symm⟩
  · have ha2 : ¬ proposal.right < cmp.right := not_lt.mpr ha
    have hb2 : ¬ proposal.bottom < cmp.bottom := not_lt.mpr hb
    have hEq : resizeGridRect old proposal cmp = proposal := by
      simp [resizeGridRect, snapToMinGridRect, ha2, hb2]
    rw [hEq]
    exact ⟨ha, hb⟩

/-- C1 counterexample: sceneToGrid anchors the recomputed grid rect at
the origin and keeps only the ceiling of the bounding size, so an
expanded component whose single 2-by-2 subcomponent sits at scene
position (-42, -42) (grid size 14, side margin 10) recomputes its grid
rect to the 4-by-4 rect at the origin, which does not contain that
child: the containment invariant fails as stated. -/
theorem expand_recompute_misses_negative_child :
    subcomponentBoundingGridRect 14 10 [⟨-42, -42, 2, 2⟩] = ⟨0, 0, 4, 4⟩ ∧
    ¬ gridRectContainsChild (subcomponentBoundingGridRect 14 10 [⟨-42, -42, 2, 2⟩]) 14
        ⟨-42, -42, 2, 2⟩ := by
  have h1 : subcomponentBoundingGridRect 14 10 [⟨-42, -42, 2, 2⟩] = ⟨0, 0, 4, 4⟩ := by
    norm_num [subcomponentBoundingGridRect, subcomponentBoundingSceneRect, boundingRectOfRects,
      childMappedBoundingRect, sceneToGrid, Int.ceil_eq_iff, min_def, max_def]
  refine ⟨h1, ?_⟩
  rw [h1]
  norm_num [gridRectContainsChild]

/-- C1 (amended): after the recomputing transitions the containment
invariant holds in the following form. Expand or ChildJust*
recomputation: the new grid rect contains every subcomponent, provided
the subcomponents sit at nonnegative scene positions (the bounding fold
starts at the origin and sceneToGrid discards the offset, so a child at
negative coordinates escapes). Collapse: the new grid rect is at least
the registered minimum footprint in both dimensions. Resize: an
accepted or rejected proposal preserves right and bottom edges at or
beyond the minimum-satisfying rect whenever the previous rect satisfied
them. -/
theorem geometry_containment_invariant (g : ℕ) (sm : ℚ) (hg : 0 < g) (hsm : 0 ≤ sm)
    (children : List ChildItem) (hpos : ∀ c ∈ children, 0 ≤ c.px ∧ 0 ≤ c.py)
    (minRect : QRect) (nIn nOut nameLen : ℕ) :
    (∀ c ∈ children, gridRectContainsChild (subcomponentBoundingGridRect g sm children) g c) ∧
    (minRect.w ≤ (collapseGridRect minRect nIn nOut nameLen g).w ∧
      minRect.h ≤ (collapseGridRect minRect nIn nOut nameLen g).h) ∧
    (∀ old proposal cmp : QRect, cmp.right ≤ old.right → cmp.bottom ≤ old.bottom →
      cmp.right ≤ (resizeGridRect old proposal cmp).right ∧
      cmp.bottom ≤ (resizeGridRect old proposal cmp).bottom) := by
  refine ⟨fun c hc => subcomponentBounding_contains_nonneg g sm hg hsm children hpos c hc,
    ?_, ?_⟩
  · rw [collapseGridRect_eq]
    exact ⟨le_add_of_nonneg_right (Int.natCast_nonneg _), le_max_left _ _⟩
  · exact fun old proposal cmp h1 h2 => resizeGridRect_preserves_min old proposal cmp h1 h2

/-- C1 witness: the amended invariant evaluated at grid size 14, side
margin 10, one 2-by-3 child at scene position (14, 28), and a component
with minimum grid rect 4 by 3, two input and three output ports and a
2-character name. -/
theorem geometry_containment_invariant_witness :
    (∀ c ∈ [ChildItem.mk 14 28 2 3],
      gridRectContainsChild (subcomponentBoundingGridRect 14 10 [⟨14, 28, 2, 3⟩]) 14 c) ∧
    ((QRect.mk 0 0 4 3).w ≤ (collapseGridRect ⟨0, 0, 4, 3⟩ 2 3 2 14).w ∧
      (QRect.mk 0 0 4 3).h ≤ (collapseGridRect ⟨0, 0, 4, 3⟩ 2 3 2 14).h) ∧
    (∀ old proposal cmp : QRect, cmp.right ≤ old.right → cmp.bottom ≤ old.bottom →
      cmp.right ≤ (resizeGridRect old proposal cmp).right ∧
      cmp.bottom ≤ (resizeGridRect old proposal cmp).bottom) :=
  geometry_containment_invariant 14 10 (by decide) (by norm_num) [⟨14, 28, 2, 3⟩]
    (by norm_num) ⟨0, 0, 4, 3⟩ 2 3 2

end VSRTL
